import Mathlib

/-!
Shallow embedding of the photo-restoration pixel pipeline in
`src/lib/image-processing.ts`, with verified properties of its
scalar color ops, box-blur primitive and orchestrator.

Numbers are modelled as exact rationals (`ℚ`); pixel buffers are
byte lists (`List ℕ`, each entry in `[0,255]`), and the internal
floating-point working buffer is modelled as a total valuation
`ℕ → ℚ` of buffer indices, written region-by-region by the loops,
exactly as the source writes its `Float32Array`.
-/

namespace ImageProcessing

/-- Embeds `RestorationAdjustments` (image-processing.ts lines 1–12):
the ten named numeric parameters. -/
structure RestorationAdjustments where
  exposure : ℚ
  contrast : ℚ
  saturation : ℚ
  vibrance : ℚ
  warmth : ℚ
  sepiaReduction : ℚ
  shadowLift : ℚ
  highlightRecovery : ℚ
  clarity : ℚ
  denoise : ℚ
  deriving DecidableEq

/-- A decoded RGBA bitmap (the `ImageData` consumed and produced by
`enhanceImageData`): width, height and the flat byte buffer. -/
@[ext]
structure ImageData where
  width : ℕ
  height : ℕ
  data : List ℕ
  deriving DecidableEq

/-- Embeds `clamp(value, min = 0, max = 255)` (line 14):
`Math.min(max, Math.max(min, value))`. -/
def clamp (value lo hi : ℚ) : ℚ :=
  min hi (max lo value)

/-- `clamp` at its default bounds `0` and `255`, as used by every
per-channel call site. -/
def clamp0255 (value : ℚ) : ℚ :=
  clamp value 0 255

/-- Embeds `lerp(start, end, amount)` (line 17). -/
def lerp (start stop amount : ℚ) : ℚ :=
  start + (stop - start) * amount

/-- Embeds `DEFAULT_ALPHA` (line 20). -/
def DEFAULT_ALPHA : ℚ := 255

/-- Embeds `luminance(r, g, b)` (line 22): ITU-R BT.709 weights. -/
def luminance (r g b : ℚ) : ℚ :=
  0.2126 * r + 0.7152 * g + 0.0722 * b

/-- Embeds `adjustSaturation` (lines 25–47). -/
def adjustSaturation (r g b amount vibrance : ℚ) : ℚ × ℚ × ℚ :=
  if amount = 0 ∧ vibrance = 0 then (r, g, b)
  else
    let gray := luminance r g b
    let satFactor := 1 + amount
    let vibFactor := 1 + vibrance
    let enhance := fun channel =>
      clamp0255 (lerp gray channel satFactor +
        (channel - gray) * (vibFactor - 1) * (1 - gray / 255))
    (enhance r, enhance g, enhance b)

/-- Embeds `applyShadowHighlight` (lines 49–78). -/
def applyShadowHighlight (r g b shadowLift highlightRecovery : ℚ) : ℚ × ℚ × ℚ :=
  if shadowLift = 0 ∧ highlightRecovery = 0 then (r, g, b)
  else
    let gray := luminance r g b
    let shadowBoost := if gray < 118 ∧ 0 < shadowLift then
        shadowLift * ((118 - gray) / 118) * 0.6
      else 0
    let highlightReduction := if 170 < gray ∧ 0 < highlightRecovery then
        highlightRecovery * ((gray - 170) / (255 - 170)) * 0.7
      else 0
    let adjustChannel := fun channel =>
      clamp0255 (channel + shadowBoost - highlightReduction)
    (adjustChannel r, adjustChannel g, adjustChannel b)

/-- Embeds `removeSepia` (lines 80–97).  Note: unlike the other scalar
ops, the three returned `lerp` values are NOT wrapped in `clamp`. -/
def removeSepia (r g b amount : ℚ) : ℚ × ℚ × ℚ :=
  if amount ≤ 0 then (r, g, b)
  else
    let gray := luminance r g b
    let strength := amount * 0.75
    let cooledR := clamp0255 (r - strength)
    let cooledG := clamp0255 (g - strength * 0.5)
    let cooledB := clamp0255 (b + strength * 0.6)
    (lerp gray cooledR 0.75, lerp gray cooledG 0.85, lerp gray cooledB 1.1)

/-- Embeds `applyWarmth` (lines 99–112). -/
def applyWarmth (r g b warmth : ℚ) : ℚ × ℚ × ℚ :=
  if warmth = 0 then (r, g, b)
  else
    let warmAmount := if 0 < warmth then warmth * 1.2 else warmth
    let coolAmount := if warmth < 0 then warmth * (-1.1) else 0
    (clamp0255 (r + warmAmount),
     clamp0255 (g + warmAmount * 0.35),
     clamp0255 (b - warmAmount * 0.8 - coolAmount))

/-- One pixel's write into the working buffer: the four consecutive
assignments `result[target] = vR; … result[target+3] = vA` modelled as
a pointwise function update. -/
def writePixel (res : ℕ → ℚ) (target : ℕ) (vR vG vB vA : ℚ) : ℕ → ℚ :=
  fun j =>
    if j = target then vR
    else if j = target + 1 then vG
    else if j = target + 2 then vB
    else if j = target + 3 then vA
    else res j

/-- Three consecutive channel assignments `working[i] = …;
working[i+1] = …; working[i+2] = …` (alpha untouched) as a pointwise
function update. -/
def writeRGB (res : ℕ → ℚ) (target : ℕ) (vR vG vB : ℚ) : ℕ → ℚ :=
  fun j =>
    if j = target then vR
    else if j = target + 1 then vG
    else if j = target + 2 then vB
    else res j

/-- Accumulator of the 3×3 kernel loop in `boxBlur`
(`sumR`, `sumG`, `sumB`, `sumA`, `samples`, lines 123–127). -/
structure BlurAcc where
  sumR : ℚ
  sumG : ℚ
  sumB : ℚ
  sumA : ℚ
  samples : ℚ
  deriving DecidableEq

/-- The kernel offsets `ky, kx ∈ {-1, 0, 1}` iterated by the inner
loops of `boxBlur` (lines 129 and 133). -/
def kernelOffsets : List ℤ := [-1, 0, 1]

/-- The accumulation performed by the two inner loops of `boxBlur`
(lines 129–144) for the pixel at `(x, y)`: sums of the in-bounds
neighbours' four channels together with the sample count.  Out-of-range
rows and columns are skipped (`continue`), exactly as in the source. -/
def blurAccAt (source : ℕ → ℚ) (width height : ℕ) (y x : ℕ) : BlurAcc :=
  kernelOffsets.foldl (fun acc ky =>
    let yy : ℤ := (y : ℤ) + ky
    if yy < 0 ∨ (height : ℤ) ≤ yy then acc
    else
      kernelOffsets.foldl (fun acc2 kx =>
        let xx : ℤ := (x : ℤ) + kx
        if xx < 0 ∨ (width : ℤ) ≤ xx then acc2
        else
          let idx := (yy.toNat * width + xx.toNat) * 4
          ⟨acc2.sumR + source idx,
           acc2.sumG + source (idx + 1),
           acc2.sumB + source (idx + 2),
           acc2.sumA + source (idx + 3),
           acc2.samples + 1⟩) acc) ⟨0, 0, 0, 0, 0⟩

/-- Body of `boxBlur`'s inner `x` loop (lines 122–151): average the
accumulated sums and write the four channels of pixel `(x, y)` at
`target = (y * width + x) * 4`. -/
def blurWriteStep (source : ℕ → ℚ) (width height y : ℕ) (res2 : ℕ → ℚ)
    (x : ℕ) : ℕ → ℚ :=
  let acc := blurAccAt source width height y x
  let target := (y * width + x) * 4
  writePixel res2 target (acc.sumR / acc.samples) (acc.sumG / acc.samples)
    (acc.sumB / acc.samples) (acc.sumA / acc.samples)

/-- Body of `boxBlur`'s outer `y` loop (lines 121–152): one whole row
of pixel writes. -/
def blurRowStep (source : ℕ → ℚ) (width height : ℕ) (res : ℕ → ℚ)
    (y : ℕ) : ℕ → ℚ :=
  (List.range width).foldl (blurWriteStep source width height y) res

/-- Embeds `boxBlur` (lines 114–155): a fresh zero buffer into which
each in-range pixel's four averaged channels are written, row by row. -/
def boxBlur (source : ℕ → ℚ) (width height : ℕ) : ℕ → ℚ :=
  (List.range height).foldl (blurRowStep source width height) (fun _ => 0)

/-- `adjustments.exposure * 2.2` (line 168). -/
def exposureOffset (adjustments : RestorationAdjustments) : ℚ :=
  adjustments.exposure * 2.2

/-- `clamp(adjustments.contrast, -80, 120)` (line 169). -/
def contrastValue (adjustments : RestorationAdjustments) : ℚ :=
  clamp adjustments.contrast (-80) 120

/-- The inner divisor `259 - contrast || 0.0001` of line 171: JS `||`
substitutes `0.0001` exactly when `259 - contrast` is zero. -/
def contrastDivisorInner (adjustments : RestorationAdjustments) : ℚ :=
  if 259 - contrastValue adjustments = 0 then 0.0001
  else 259 - contrastValue adjustments

/-- The contrast factor `(259 * (contrast + 255)) / (255 * (259 - contrast || 0.0001))`
(lines 170–171). -/
def contrastFactor (adjustments : RestorationAdjustments) : ℚ :=
  (259 * (contrastValue adjustments + 255)) / (255 * contrastDivisorInner adjustments)

/-- Body of the per-pixel scalar loop of `enhanceImageData`
(lines 177–206) for the pixel starting at index `i = 4 * p`: read the
four channels (alpha falling back to `DEFAULT_ALPHA` when `i + 3` is
out of range, the `??` of line 181), apply exposure, contrast and the
four scalar color ops, then write the four clamped channels back. -/
def scalarStep (adjustments : RestorationAdjustments) (len : ℕ)
    (w : ℕ → ℚ) (p : ℕ) : ℕ → ℚ :=
  let i := 4 * p
  let r0 := w i
  let g0 := w (i + 1)
  let b0 := w (i + 2)
  let a := if i + 3 < len then w (i + 3) else DEFAULT_ALPHA
  let r1 := clamp0255 (r0 + exposureOffset adjustments)
  let g1 := clamp0255 (g0 + exposureOffset adjustments)
  let b1 := clamp0255 (b0 + exposureOffset adjustments)
  let r2 := clamp0255 (contrastFactor adjustments * (r1 - 128) + 128)
  let g2 := clamp0255 (contrastFactor adjustments * (g1 - 128) + 128)
  let b2 := clamp0255 (contrastFactor adjustments * (b1 - 128) + 128)
  let s3 := adjustSaturation r2 g2 b2 (adjustments.saturation / 100)
    (adjustments.vibrance / 100)
  let s4 := removeSepia s3.1 s3.2.1 s3.2.2 (adjustments.sepiaReduction / 100 * 100)
  let s5 := applyWarmth s4.1 s4.2.1 s4.2.2 adjustments.warmth
  let s6 := applyShadowHighlight s5.1 s5.2.1 s5.2.2 adjustments.shadowLift
    adjustments.highlightRecovery
  writePixel w i (clamp0255 s6.1) (clamp0255 s6.2.1) (clamp0255 s6.2.2) (clamp0255 a)

/-- The number of iterations of a `for (i = 0; i < len; i += 4)` loop:
one per started pixel quadruple. -/
def numPixelIters (len : ℕ) : ℕ := (len + 3) / 4

/-- The whole per-pixel scalar loop of `enhanceImageData`
(lines 177–206). -/
def scalarPass (adjustments : RestorationAdjustments) (len : ℕ)
    (w0 : ℕ → ℚ) : ℕ → ℚ :=
  (List.range (numPixelIters len)).foldl (scalarStep adjustments len) w0

/-- Body of the denoise mixing loop (lines 212–216): blend R, G, B
toward the blurred buffer, leave alpha alone. -/
def denoiseStep (denoiseMix : ℚ) (blurred : ℕ → ℚ) (w : ℕ → ℚ) (p : ℕ) : ℕ → ℚ :=
  let i := 4 * p
  writeRGB w i (lerp (w i) (blurred i) denoiseMix)
    (lerp (w (i + 1)) (blurred (i + 1)) denoiseMix)
    (lerp (w (i + 2)) (blurred (i + 2)) denoiseMix)

/-- The denoise mixing loop of `enhanceImageData` (lines 212–216). -/
def denoisePass (denoiseMix : ℚ) (blurred : ℕ → ℚ) (len : ℕ)
    (w0 : ℕ → ℚ) : ℕ → ℚ :=
  (List.range (numPixelIters len)).foldl (denoiseStep denoiseMix blurred) w0

/-- Body of the clarity loop (lines 223–235): add back the per-channel
detail against the softened buffer, clamped; alpha untouched. -/
def clarityStep (clarityMix : ℚ) (softened : ℕ → ℚ) (w : ℕ → ℚ) (p : ℕ) : ℕ → ℚ :=
  let i := 4 * p
  let detailR := w i - softened i
  let detailG := w (i + 1) - softened (i + 1)
  let detailB := w (i + 2) - softened (i + 2)
  writeRGB w i
    (clamp0255 (w i + detailR * (0.8 + clarityMix)))
    (clamp0255 (w (i + 1) + detailG * (0.8 + clarityMix * 0.9)))
    (clamp0255 (w (i + 2) + detailB * (0.8 + clarityMix * 0.9)))

/-- The clarity loop of `enhanceImageData` (lines 223–235). -/
def clarityPass (clarityMix : ℚ) (softened : ℕ → ℚ) (len : ℕ)
    (w0 : ℕ → ℚ) : ℕ → ℚ :=
  (List.range (numPixelIters len)).foldl (clarityStep clarityMix softened) w0

/-- The rounding a JS `Uint8ClampedArray` store applies to an
already-clamped value: round to nearest, ties to even
(ECMAScript ToUint8Clamp). -/
def toUint8Clamp (q : ℚ) : ℕ :=
  if q ≤ 0 then 0
  else if 255 ≤ q then 255
  else if q - ⌊q⌋ < 1 / 2 then (⌊q⌋).toNat
  else if 1 / 2 < q - ⌊q⌋ then (⌊q⌋ + 1).toNat
  else if ⌊q⌋ % 2 = 0 then (⌊q⌋).toNat
  else (⌊q⌋ + 1).toNat

/-- Embeds `enhanceImageData` (lines 157–244): copy the source bytes
into the working buffer, run the scalar pass, conditionally the
denoise and clarity passes (each preceded by one `boxBlur` of the
buffer as it then stands), and clamp-and-quantize every channel into a
fresh output buffer of the same length. -/
def enhanceImageData (sourceImageData : ImageData)
    (adjustments : RestorationAdjustments) : ImageData :=
  let len := sourceImageData.data.length
  let working0 : ℕ → ℚ := fun i => ((sourceImageData.data.getD i 0 : ℕ) : ℚ)
  let working1 := scalarPass adjustments len working0
  let working2 :=
    if 0 < adjustments.denoise then
      denoisePass (min 0.85 (adjustments.denoise / 100))
        (boxBlur working1 sourceImageData.width sourceImageData.height)
        len working1
    else working1
  let working3 :=
    if 0 < adjustments.clarity then
      clarityPass (adjustments.clarity / 100)
        (boxBlur working2 sourceImageData.width sourceImageData.height)
        len working2
    else working2
  ⟨sourceImageData.width, sourceImageData.height,
    (List.range len).map fun i => toUint8Clamp (clamp0255 (working3 i))⟩

/-- Embeds `DEFAULT_ADJUSTMENTS` (lines 246–257). -/
def DEFAULT_ADJUSTMENTS : RestorationAdjustments :=
  ⟨6, 12, 16, 18, 4, 30, 12, 8, 14, 18⟩

/-- Embeds `CLEAN_SLATE_ADJUSTMENTS` (lines 259–270). -/
def CLEAN_SLATE_ADJUSTMENTS : RestorationAdjustments :=
  ⟨0, 0, 0, 0, 0, 0, 0, 0, 0, 0⟩

/-- Variant of `scalarStep` for comparison: `removeSepia` receives
`sepiaReduction` directly, with no `/100 * 100` double scaling.
Everything else is identical to `scalarStep`. -/
def scalarStepDirectSepia (adjustments : RestorationAdjustments) (len : ℕ)
    (w : ℕ → ℚ) (p : ℕ) : ℕ → ℚ :=
  let i := 4 * p
  let r0 := w i
  let g0 := w (i + 1)
  let b0 := w (i + 2)
  let a := if i + 3 < len then w (i + 3) else DEFAULT_ALPHA
  let r1 := clamp0255 (r0 + exposureOffset adjustments)
  let g1 := clamp0255 (g0 + exposureOffset adjustments)
  let b1 := clamp0255 (b0 + exposureOffset adjustments)
  let r2 := clamp0255 (contrastFactor adjustments * (r1 - 128) + 128)
  let g2 := clamp0255 (contrastFactor adjustments * (g1 - 128) + 128)
  let b2 := clamp0255 (contrastFactor adjustments * (b1 - 128) + 128)
  let s3 := adjustSaturation r2 g2 b2 (adjustments.saturation / 100)
    (adjustments.vibrance / 100)
  let s4 := removeSepia s3.1 s3.2.1 s3.2.2 adjustments.sepiaReduction
  let s5 := applyWarmth s4.1 s4.2.1 s4.2.2 adjustments.warmth
  let s6 := applyShadowHighlight s5.1 s5.2.1 s5.2.2 adjustments.shadowLift
    adjustments.highlightRecovery
  writePixel w i (clamp0255 s6.1) (clamp0255 s6.2.1) (clamp0255 s6.2.2) (clamp0255 a)

/-- The scalar loop built on `scalarStepDirectSepia`. -/
def scalarPassDirectSepia (adjustments : RestorationAdjustments) (len : ℕ)
    (w0 : ℕ → ℚ) : ℕ → ℚ :=
  (List.range (numPixelIters len)).foldl (scalarStepDirectSepia adjustments len) w0

/-- Variant of `enhanceImageData` whose only difference is that the
sepia-removal step receives `sepiaReduction` unscaled. -/
def enhanceImageDataDirectSepia (sourceImageData : ImageData)
    (adjustments : RestorationAdjustments) : ImageData :=
  let len := sourceImageData.data.length
  let working0 : ℕ → ℚ := fun i => ((sourceImageData.data.getD i 0 : ℕ) : ℚ)
  let working1 := scalarPassDirectSepia adjustments len working0
  let working2 :=
    if 0 < adjustments.denoise then
      denoisePass (min 0.85 (adjustments.denoise / 100))
        (boxBlur working1 sourceImageData.width sourceImageData.height)
        len working1
    else working1
  let working3 :=
    if 0 < adjustments.clarity then
      clarityPass (adjustments.clarity / 100)
        (boxBlur working2 sourceImageData.width sourceImageData.height)
        len working2
    else working2
  ⟨sourceImageData.width, sourceImageData.height,
    (List.range len).map fun i => toUint8Clamp (clamp0255 (working3 i))⟩

/-- Modelled from the spec (§8 "Denoise/clarity skip"): the reference
pipeline that omits steps 9 (denoise) and 10 (clarity) entirely — no
blur is ever invoked; everything else is `enhanceImageData` verbatim. -/
def enhanceImageDataNoBlur (sourceImageData : ImageData)
    (adjustments : RestorationAdjustments) : ImageData :=
  let len := sourceImageData.data.length
  let working0 : ℕ → ℚ := fun i => ((sourceImageData.data.getD i 0 : ℕ) : ℚ)
  let working1 := scalarPass adjustments len working0
  ⟨sourceImageData.width, sourceImageData.height,
    (List.range len).map fun i => toUint8Clamp (clamp0255 (working1 i))⟩

/-- All three components of an (R, G, B) triple lie in `[0, 255]`. -/
def inRange255 (t : ℚ × ℚ × ℚ) : Prop :=
  (0 ≤ t.1 ∧ t.1 ≤ 255) ∧ (0 ≤ t.2.1 ∧ t.2.1 ≤ 255) ∧ (0 ≤ t.2.2 ∧ t.2.2 ≤ 255)

/-- The in-bounds 3×3 window around pixel `(x, y)`: the kernel offsets
whose row and column survive the bounds checks of `boxBlur` (no
wraparound, no padding). -/
def blurWindow (width height : ℕ) (y x : ℕ) : Finset (ℤ × ℤ) :=
  (Finset.Icc (-1 : ℤ) 1 ×ˢ Finset.Icc (-1 : ℤ) 1).filter fun d =>
    ¬((y : ℤ) + d.1 < 0 ∨ (height : ℤ) ≤ (y : ℤ) + d.1) ∧
    ¬((x : ℤ) + d.2 < 0 ∨ (width : ℤ) ≤ (x : ℤ) + d.2)

/-- Buffer index of channel `c` of the neighbour at offset `d` from
pixel `(x, y)`. -/
def neighborIdx (width : ℕ) (y x : ℕ) (d : ℤ × ℤ) (c : ℕ) : ℕ :=
  (((y : ℤ) + d.1).toNat * width + ((x : ℤ) + d.2).toNat) * 4 + c

/-! ### Basic lemmas about clamp, lerp and quantization -/

theorem clamp0255_nonneg (v : ℚ) : 0 ≤ clamp0255 v := by
  unfold clamp0255 clamp
  simp only [le_min_iff, le_max_iff]
  exact ⟨by norm_num, Or.inl le_rfl⟩

theorem clamp0255_le (v : ℚ) : clamp0255 v ≤ 255 :=
  min_le_left _ _

theorem clamp0255_eq_self {v : ℚ} (h0 : 0 ≤ v) (h1 : v ≤ 255) :
    clamp0255 v = v := by
  unfold clamp0255 clamp
  rw [max_eq_right h0, min_eq_right h1]

theorem clamp0255_idem (v : ℚ) : clamp0255 (clamp0255 v) = clamp0255 v :=
  clamp0255_eq_self (clamp0255_nonneg v) (clamp0255_le v)

theorem toUint8Clamp_natCast (n : ℕ) (h : n ≤ 255) : toUint8Clamp (n : ℚ) = n := by
  unfold toUint8Clamp
  rcases Nat.eq_zero_or_pos n with h0 | h0
  · subst h0; norm_num
  rcases eq_or_lt_of_le h with h255 | h255
  · rw [if_neg (by exact_mod_cast Nat.not_le.mpr h0), if_pos (by exact_mod_cast h255.ge)]
    omega
  · rw [if_neg (by exact_mod_cast Nat.not_le.mpr h0),
      if_neg (by exact_mod_cast Nat.not_le.mpr h255)]
    rw [show ⌊(n : ℚ)⌋ = (n : ℤ) from Int.floor_natCast n]
    rw [if_pos (by push_cast; norm_num)]
    exact Int.toNat_natCast n

/-! ### Generic characterization of the region-writing pixel loops

Every loop of the pipeline iterates over pixel indices and writes only
a fixed contiguous region of the buffer per iteration (four channels
per pixel, one row of pixels per row iteration of the blur).  The
lemmas below characterize such folds pointwise. -/

theorem foldl_fix {α : Type} (F : (ℕ → ℚ) → α → (ℕ → ℚ)) (j : ℕ) :
    ∀ (l : List α) (w0 : ℕ → ℚ), (∀ w p, p ∈ l → F w p j = w j) →
      (l.foldl F w0) j = w0 j := by
  intro l
  induction l with
  | nil => intro w0 _; rfl
  | cons a t ih =>
    intro w0 h
    rw [List.foldl_cons, ih (F w0 a) fun w p hp => h w p (List.mem_cons_of_mem a hp),
      h w0 a (List.mem_cons_self a t)]

theorem foldl_range_write_lower (F : (ℕ → ℚ) → ℕ → (ℕ → ℚ)) (o s : ℕ)
    (hF : ∀ w p j, j < o + s * p ∨ o + s * p + s ≤ j → F w p j = w j) :
    ∀ (p : ℕ) (w0 : ℕ → ℚ) (j : ℕ), o + s * p ≤ j →
      ((List.range p).foldl F w0) j = w0 j := by
  intro p
  induction p with
  | zero => intro w0 j _; rfl
  | succ q ih =>
    intro w0 j hj
    rw [List.range_succ, List.foldl_append, List.foldl_cons, List.foldl_nil]
    rw [hF _ q j (Or.inr (by nlinarith [Nat.le_of_lt_succ (Nat.lt_succ_self q)]))]
    exact ih w0 j (le_trans (by nlinarith) hj)

theorem foldl_range_write_at (F : (ℕ → ℚ) → ℕ → (ℕ → ℚ)) (o s : ℕ)
    (hF : ∀ w p j, j < o + s * p ∨ o + s * p + s ≤ j → F w p j = w j) :
    ∀ (n : ℕ) (w0 : ℕ → ℚ) (p j : ℕ), p < n → o + s * p ≤ j → j < o + s * p + s →
      ((List.range n).foldl F w0) j = F ((List.range p).foldl F w0) p j := by
  intro n
  induction n with
  | zero => intro w0 p j hp _ _; exact absurd hp (Nat.not_lt_zero p)
  | succ m ih =>
    intro w0 p j hp hj1 hj2
    rw [List.range_succ, List.foldl_append, List.foldl_cons, List.foldl_nil]
    rcases Nat.lt_succ_iff_lt_or_eq.mp hp with hlt | heq
    · rw [hF _ m j (Or.inl (lt_of_lt_of_le hj2 (by nlinarith)))]
      exact ih w0 p j hlt hj1 hj2
    · subst heq; rfl

theorem foldl_range_pass_at (F : (ℕ → ℚ) → ℕ → (ℕ → ℚ)) (o s : ℕ)
    (hF : ∀ w p j, j < o + s * p ∨ o + s * p + s ≤ j → F w p j = w j)
    (hR : ∀ (w w' : ℕ → ℚ) (p : ℕ), (∀ j, o + s * p ≤ j → w j = w' j) →
      ∀ j, o + s * p ≤ j → j < o + s * p + s → F w p j = F w' p j)
    (n : ℕ) (w0 : ℕ → ℚ) (p j : ℕ) (hp : p < n) (hj1 : o + s * p ≤ j)
    (hj2 : j < o + s * p + s) :
    ((List.range n).foldl F w0) j = F w0 p j := by
  rw [foldl_range_write_at F o s hF n w0 p j hp hj1 hj2]
  exact hR _ w0 p (fun i hi => foldl_range_write_lower F o s hF p w0 i hi) j hj1 hj2

/-! ### Pointwise characterization of the three per-pixel passes -/

theorem scalarStep_outside (adjustments : RestorationAdjustments) (len : ℕ)
    (w : ℕ → ℚ) (p j : ℕ) (hj : j < 4 * p ∨ 4 * p + 4 ≤ j) :
    scalarStep adjustments len w p j = w j := by
  simp only [scalarStep, writePixel]
  rw [if_neg (by omega), if_neg (by omega), if_neg (by omega), if_neg (by omega)]

theorem scalarStep_agree (adjustments : RestorationAdjustments) (len : ℕ)
    (w w' : ℕ → ℚ) (p : ℕ) (h : ∀ j, 4 * p ≤ j → w j = w' j)
    (j : ℕ) (hj1 : 4 * p ≤ j) (hj2 : j < 4 * p + 4) :
    scalarStep adjustments len w p j = scalarStep adjustments len w' p j := by
  have h0 := h (4 * p) le_rfl
  have h1 := h (4 * p + 1) (by omega)
  have h2 := h (4 * p + 2) (by omega)
  have h3 := h (4 * p + 3) (by omega)
  simp only [scalarStep, writePixel]
  rw [h0, h1, h2, h3, h j hj1]

theorem scalarPass_apply (adjustments : RestorationAdjustments) (len : ℕ)
    (w0 : ℕ → ℚ) (p j : ℕ) (hp : p < numPixelIters len)
    (hj1 : 4 * p ≤ j) (hj2 : j < 4 * p + 4) :
    scalarPass adjustments len w0 j = scalarStep adjustments len w0 p j := by
  unfold scalarPass
  exact foldl_range_pass_at (scalarStep adjustments len) 0 4
    (fun w q i hi => scalarStep_outside adjustments len w q i (by omega))
    (fun w w' q hw i hi1 hi2 => scalarStep_agree adjustments len w w' q
      (fun k hk => hw k (by omega)) i (by omega) (by omega))
    (numPixelIters len) w0 p j hp (by omega) (by omega)

theorem denoiseStep_outside (denoiseMix : ℚ) (blurred : ℕ → ℚ) (w : ℕ → ℚ)
    (p j : ℕ) (hj : j < 4 * p ∨ 4 * p + 4 ≤ j) :
    denoiseStep denoiseMix blurred w p j = w j := by
  simp only [denoiseStep, writeRGB]
  rw [if_neg (by omega), if_neg (by omega), if_neg (by omega)]

theorem denoiseStep_agree (denoiseMix : ℚ) (blurred : ℕ → ℚ) (w w' : ℕ → ℚ)
    (p : ℕ) (h : ∀ j, 4 * p ≤ j → w j = w' j)
    (j : ℕ) (hj1 : 4 * p ≤ j) (hj2 : j < 4 * p + 4) :
    denoiseStep denoiseMix blurred w p j = denoiseStep denoiseMix blurred w' p j := by
  have h0 := h (4 * p) le_rfl
  have h1 := h (4 * p + 1) (by omega)
  have h2 := h (4 * p + 2) (by omega)
  simp only [denoiseStep, writeRGB]
  rw [h0, h1, h2, h j hj1]

theorem denoisePass_apply (denoiseMix : ℚ) (blurred : ℕ → ℚ) (len : ℕ)
    (w0 : ℕ → ℚ) (p j : ℕ) (hp : p < numPixelIters len)
    (hj1 : 4 * p ≤ j) (hj2 : j < 4 * p + 4) :
    denoisePass denoiseMix blurred len w0 j = denoiseStep denoiseMix blurred w0 p j := by
  unfold denoisePass
  exact foldl_range_pass_at (denoiseStep denoiseMix blurred) 0 4
    (fun w q i hi => denoiseStep_outside denoiseMix blurred w q i (by omega))
    (fun w w' q hw i hi1 hi2 => denoiseStep_agree denoiseMix blurred w w' q
      (fun k hk => hw k (by omega)) i (by omega) (by omega))
    (numPixelIters len) w0 p j hp (by omega) (by omega)

theorem clarityStep_outside (clarityMix : ℚ) (softened : ℕ → ℚ) (w : ℕ → ℚ)
    (p j : ℕ) (hj : j < 4 * p ∨ 4 * p + 4 ≤ j) :
    clarityStep clarityMix softened w p j = w j := by
  simp only [clarityStep, writeRGB]
  rw [if_neg (by omega), if_neg (by omega), if_neg (by omega)]

theorem clarityStep_agree (clarityMix : ℚ) (softened : ℕ → ℚ) (w w' : ℕ → ℚ)
    (p : ℕ) (h : ∀ j, 4 * p ≤ j → w j = w' j)
    (j : ℕ) (hj1 : 4 * p ≤ j) (hj2 : j < 4 * p + 4) :
    clarityStep clarityMix softened w p j = clarityStep clarityMix softened w' p j := by
  have h0 := h (4 * p) le_rfl
  have h1 := h (4 * p + 1) (by omega)
  have h2 := h (4 * p + 2) (by omega)
  simp only [clarityStep, writeRGB]
  rw [h0, h1, h2, h j hj1]

theorem clarityPass_apply (clarityMix : ℚ) (softened : ℕ → ℚ) (len : ℕ)
    (w0 : ℕ → ℚ) (p j : ℕ) (hp : p < numPixelIters len)
    (hj1 : 4 * p ≤ j) (hj2 : j < 4 * p + 4) :
    clarityPass clarityMix softened len w0 j = clarityStep clarityMix softened w0 p j := by
  unfold clarityPass
  exact foldl_range_pass_at (clarityStep clarityMix softened) 0 4
    (fun w q i hi => clarityStep_outside clarityMix softened w q i (by omega))
    (fun w w' q hw i hi1 hi2 => clarityStep_agree clarityMix softened w w' q
      (fun k hk => hw k (by omega)) i (by omega) (by omega))
    (numPixelIters len) w0 p j hp (by omega) (by omega)

/-! ### Identity branches of the scalar color ops -/

theorem adjustSaturation_zero (r g b : ℚ) : adjustSaturation r g b 0 0 = (r, g, b) :=
  if_pos ⟨rfl, rfl⟩

theorem removeSepia_nonpos (r g b amount : ℚ) (h : amount ≤ 0) :
    removeSepia r g b amount = (r, g, b) :=
  if_pos h

theorem applyWarmth_zero (r g b : ℚ) : applyWarmth r g b 0 = (r, g, b) :=
  if_pos rfl

theorem applyShadowHighlight_zero (r g b : ℚ) :
    applyShadowHighlight r g b 0 0 = (r, g, b) :=
  if_pos ⟨rfl, rfl⟩

theorem contrastValue_of_zero (adjustments : RestorationAdjustments)
    (h : adjustments.contrast = 0) : contrastValue adjustments = 0 := by
  unfold contrastValue clamp
  rw [h]
  norm_num

theorem contrastFactor_of_zero (adjustments : RestorationAdjustments)
    (h : adjustments.contrast = 0) : contrastFactor adjustments = 1 := by
  unfold contrastFactor contrastDivisorInner
  rw [contrastValue_of_zero adjustments h]
  norm_num

theorem removeSepia_zero (r g b : ℚ) : removeSepia r g b 0 = (r, g, b) :=
  removeSepia_nonpos r g b 0 le_rfl

/-! ### Reading back written pixels -/

theorem writePixel_at0 (res : ℕ → ℚ) (t : ℕ) (vR vG vB vA : ℚ) :
    writePixel res t vR vG vB vA t = vR := by
  simp [writePixel]

theorem writePixel_at1 (res : ℕ → ℚ) (t : ℕ) (vR vG vB vA : ℚ) :
    writePixel res t vR vG vB vA (t + 1) = vG := by
  simp [writePixel]

theorem writePixel_at2 (res : ℕ → ℚ) (t : ℕ) (vR vG vB vA : ℚ) :
    writePixel res t vR vG vB vA (t + 2) = vB := by
  simp [writePixel]

theorem writePixel_at3 (res : ℕ → ℚ) (t : ℕ) (vR vG vB vA : ℚ) :
    writePixel res t vR vG vB vA (t + 3) = vA := by
  simp [writePixel]

/-- Every scalar-loop iteration writes `clamp(a)` into the alpha slot of
its own pixel, whatever the adjustments. -/
theorem scalarStep_alpha (adjustments : RestorationAdjustments) (len : ℕ)
    (w : ℕ → ℚ) (p : ℕ) :
    scalarStep adjustments len w p (4 * p + 3)
      = clamp0255 (if 4 * p + 3 < len then w (4 * p + 3) else DEFAULT_ALPHA) := by
  simp only [scalarStep]
  rw [writePixel_at3]

/-- The denoise mix never writes the alpha slot. -/
theorem denoiseStep_alpha (denoiseMix : ℚ) (blurred : ℕ → ℚ) (w : ℕ → ℚ) (p : ℕ) :
    denoiseStep denoiseMix blurred w p (4 * p + 3) = w (4 * p + 3) := by
  simp only [denoiseStep, writeRGB]
  rw [if_neg (by omega), if_neg (by omega), if_neg (by omega)]

/-- The clarity loop never writes the alpha slot. -/
theorem clarityStep_alpha (clarityMix : ℚ) (softened : ℕ → ℚ) (w : ℕ → ℚ) (p : ℕ) :
    clarityStep clarityMix softened w p (4 * p + 3) = w (4 * p + 3) := by
  simp only [clarityStep, writeRGB]
  rw [if_neg (by omega), if_neg (by omega), if_neg (by omega)]

/-- With all scalar parameters at zero and only exposure set, one
scalar-loop iteration adds `exposure * 2.2` to R, G, B (clamped) and
clamps the alpha read. -/
theorem scalarStep_exposure_only (e cl dn : ℚ) (len : ℕ) (w : ℕ → ℚ) (p : ℕ) :
    scalarStep ⟨e, 0, 0, 0, 0, 0, 0, 0, cl, dn⟩ len w p
      = writePixel w (4 * p)
          (clamp0255 (w (4 * p) + e * 2.2))
          (clamp0255 (w (4 * p + 1) + e * 2.2))
          (clamp0255 (w (4 * p + 2) + e * 2.2))
          (clamp0255 (if 4 * p + 3 < len then w (4 * p + 3) else DEFAULT_ALPHA)) := by
  have hsub : ∀ q : ℚ, q - 128 + 128 = q := fun q => by ring
  simp only [scalarStep, exposureOffset, contrastFactor_of_zero, one_mul,
    hsub, clamp0255_idem, zero_div, zero_mul,
    adjustSaturation_zero, removeSepia_zero, applyWarmth_zero,
    applyShadowHighlight_zero]

/-- `getD` with default `0` on an in-range index reads the element. -/
theorem getD_lt (l : List ℕ) (i : ℕ) (h : i < l.length) : l.getD i 0 = l[i] := by
  rw [List.getD_eq_getElem?_getD, List.getElem?_eq_getElem h]
  rfl

/-- Reading an in-range index of the quantized output buffer. -/
theorem getD_range_map (f : ℕ → ℕ) (len j : ℕ) (h : j < len) :
    ((List.range len).map f).getD j 0 = f j := by
  rw [List.getD_eq_getElem?_getD, List.getElem?_map, List.getElem?_range h]
  rfl

/-! ### Pointwise characterization of the box blur -/

theorem writePixel_outside (res : ℕ → ℚ) (t : ℕ) (vR vG vB vA : ℚ) (j : ℕ)
    (hj : j < t ∨ t + 4 ≤ j) : writePixel res t vR vG vB vA j = res j := by
  simp only [writePixel]
  rw [if_neg (by omega), if_neg (by omega), if_neg (by omega), if_neg (by omega)]

theorem writePixel_congr (res res' : ℕ → ℚ) (t : ℕ) (vR vG vB vA : ℚ) (j : ℕ)
    (h : res j = res' j) :
    writePixel res t vR vG vB vA j = writePixel res' t vR vG vB vA j := by
  simp only [writePixel]
  split_ifs <;> first | rfl | exact h

theorem foldl_congr_at {α : Type} (F : (ℕ → ℚ) → α → (ℕ → ℚ)) (j : ℕ)
    (hF : ∀ w w' p, w j = w' j → F w p j = F w' p j) :
    ∀ (l : List α) (w0 w0' : ℕ → ℚ), w0 j = w0' j →
      (l.foldl F w0) j = (l.foldl F w0') j := by
  intro l
  induction l with
  | nil => intro w0 w0' h; exact h
  | cons a t ih =>
    intro w0 w0' h
    rw [List.foldl_cons, List.foldl_cons]
    exact ih (F w0 a) (F w0' a) (hF w0 w0' a h)

theorem blurWriteStep_outside (source : ℕ → ℚ) (width height y : ℕ)
    (res : ℕ → ℚ) (x j : ℕ)
    (hj : j < 4 * width * y + 4 * x ∨ 4 * width * y + 4 * x + 4 ≤ j) :
    blurWriteStep source width height y res x j = res j := by
  have e : (y * width + x) * 4 = 4 * width * y + 4 * x := by ring
  simp only [blurWriteStep]
  apply writePixel_outside
  rw [e]
  exact hj

theorem blurWriteStep_congr (source : ℕ → ℚ) (width height y : ℕ)
    (res res' : ℕ → ℚ) (x j : ℕ) (h : res j = res' j) :
    blurWriteStep source width height y res x j
      = blurWriteStep source width height y res' x j := by
  simp only [blurWriteStep]
  exact writePixel_congr res res' _ _ _ _ _ j h

theorem blurRowStep_outside (source : ℕ → ℚ) (width height : ℕ)
    (res : ℕ → ℚ) (y j : ℕ)
    (hj : j < 4 * width * y ∨ 4 * width * y + 4 * width ≤ j) :
    blurRowStep source width height res y j = res j := by
  unfold blurRowStep
  apply foldl_fix
  intro w x hx
  have hxw : x < width := List.mem_range.mp hx
  exact blurWriteStep_outside source width height y w x j (by omega)

theorem blurRowStep_congr (source : ℕ → ℚ) (width height : ℕ)
    (res res' : ℕ → ℚ) (y j : ℕ) (h : res j = res' j) :
    blurRowStep source width height res y j
      = blurRowStep source width height res' y j := by
  unfold blurRowStep
  exact foldl_congr_at (blurWriteStep source width height y) j
    (fun w w' p hw => blurWriteStep_congr source width height y w w' p j hw)
    (List.range width) res res' h

/-- The value `boxBlur` leaves at any channel of the in-range pixel
`(x, y)` is exactly what that pixel's own write put there. -/
theorem boxBlur_apply (source : ℕ → ℚ) (width height y x : ℕ)
    (hy : y < height) (hx : x < width) (j : ℕ)
    (hj1 : (y * width + x) * 4 ≤ j) (hj2 : j < (y * width + x) * 4 + 4) :
    boxBlur source width height j
      = blurWriteStep source width height y (fun _ => 0) x j := by
  have e : (y * width + x) * 4 = 4 * width * y + 4 * x := by ring
  rw [e] at hj1 hj2
  unfold boxBlur
  rw [foldl_range_pass_at (blurRowStep source width height) 0 (4 * width)
    (fun w p i hi => blurRowStep_outside source width height w p i (by omega))
    (fun w w' p hagree i hi1 hi2 => blurRowStep_congr source width height w w' p i
      (hagree i hi1))
    height (fun _ => 0) y j hy (by omega) (by omega)]
  unfold blurRowStep
  rw [foldl_range_pass_at (blurWriteStep source width height y) (4 * width * y) 4
    (fun w p i hi => blurWriteStep_outside source width height y w p i (by omega))
    (fun w w' p hagree i hi1 hi2 => blurWriteStep_congr source width height y w w' p i
      (hagree i hi1))
    width (fun _ => 0) x j hx (by omega) (by omega)]

/-! ### The blur accumulator as a sum over the in-bounds window -/

theorem foldl_cond_add {d : Type} (P : d → Prop) [DecidablePred P] (f : d → ℚ) :
    ∀ (l : List d) (a : ℚ),
      l.foldl (fun s k => if P k then s else s + f k) a
        = a + (l.map fun k => if P k then 0 else f k).sum := by
  intro l
  induction l with
  | nil => intro a; simp
  | cons b t ih =>
    intro a
    rw [List.foldl_cons, List.map_cons, List.sum_cons, ih]
    by_cases h : P b
    · rw [if_pos h, if_pos h]; ring
    · rw [if_neg h, if_neg h]; ring

/-- Any ℚ-valued projection of the 3×3 accumulation that sends the zero
accumulator to `0` and each in-bounds update to `+ g idx` computes the
double conditional sum of `g` over the kernel offsets. -/
theorem blurAccAt_proj (source : ℕ → ℚ) (width height y x : ℕ)
    (proj : BlurAcc → ℚ) (g : ℕ → ℚ)
    (h0 : proj ⟨0, 0, 0, 0, 0⟩ = 0)
    (hstep : ∀ (acc2 : BlurAcc) (idx : ℕ),
      proj ⟨acc2.sumR + source idx, acc2.sumG + source (idx + 1),
            acc2.sumB + source (idx + 2), acc2.sumA + source (idx + 3),
            acc2.samples + 1⟩ = proj acc2 + g idx) :
    proj (blurAccAt source width height y x)
      = (kernelOffsets.map fun ky =>
          if (y : ℤ) + ky < 0 ∨ (height : ℤ) ≤ (y : ℤ) + ky then 0
          else (kernelOffsets.map fun kx =>
            if (x : ℤ) + kx < 0 ∨ (width : ℤ) ≤ (x : ℤ) + kx then 0
            else g ((((y : ℤ) + ky).toNat * width + ((x : ℤ) + kx).toNat) * 4)).sum).sum := by
  have hinner : ∀ (ky : ℤ) (acc : BlurAcc),
      proj (kernelOffsets.foldl (fun acc2 kx =>
          if (x : ℤ) + kx < 0 ∨ (width : ℤ) ≤ (x : ℤ) + kx then acc2
          else ⟨acc2.sumR + source ((((y : ℤ) + ky).toNat * width + ((x : ℤ) + kx).toNat) * 4),
                acc2.sumG + source ((((y : ℤ) + ky).toNat * width + ((x : ℤ) + kx).toNat) * 4 + 1),
                acc2.sumB + source ((((y : ℤ) + ky).toNat * width + ((x : ℤ) + kx).toNat) * 4 + 2),
                acc2.sumA + source ((((y : ℤ) + ky).toNat * width + ((x : ℤ) + kx).toNat) * 4 + 3),
                acc2.samples + 1⟩) acc)
        = kernelOffsets.foldl (fun r2 kx =>
            if (x : ℤ) + kx < 0 ∨ (width : ℤ) ≤ (x : ℤ) + kx then r2
            else r2 + g ((((y : ℤ) + ky).toNat * width + ((x : ℤ) + kx).toNat) * 4)) (proj acc) := by
    intro ky acc
    refine (List.foldl_hom proj _ _ kernelOffsets acc ?_).symm
    intro a k
    by_cases h : (x : ℤ) + k < 0 ∨ (width : ℤ) ≤ (x : ℤ) + k
    · rw [if_pos h, if_pos h]
    · rw [if_neg h, if_neg h, hstep]
  have houter :
      proj (blurAccAt source width height y x)
        = kernelOffsets.foldl (fun r ky =>
            if (y : ℤ) + ky < 0 ∨ (height : ℤ) ≤ (y : ℤ) + ky then r
            else kernelOffsets.foldl (fun r2 kx =>
              if (x : ℤ) + kx < 0 ∨ (width : ℤ) ≤ (x : ℤ) + kx then r2
              else r2 + g ((((y : ℤ) + ky).toNat * width + ((x : ℤ) + kx).toNat) * 4)) r)
            (proj ⟨0, 0, 0, 0, 0⟩) := by
    unfold blurAccAt
    refine (List.foldl_hom proj _ _ kernelOffsets ⟨0, 0, 0, 0, 0⟩ ?_).symm
    intro a k
    by_cases h : (y : ℤ) + k < 0 ∨ (height : ℤ) ≤ (y : ℤ) + k
    · rw [if_pos h, if_pos h]
    · rw [if_neg h, if_neg h, hinner k a]
  rw [houter, h0]
  have hQ : (fun (r : ℚ) (ky : ℤ) =>
        if (y : ℤ) + ky < 0 ∨ (height : ℤ) ≤ (y : ℤ) + ky then r
        else kernelOffsets.foldl (fun r2 kx =>
          if (x : ℤ) + kx < 0 ∨ (width : ℤ) ≤ (x : ℤ) + kx then r2
          else r2 + g ((((y : ℤ) + ky).toNat * width + ((x : ℤ) + kx).toNat) * 4)) r)
      = fun (r : ℚ) (ky : ℤ) =>
        if (y : ℤ) + ky < 0 ∨ (height : ℤ) ≤ (y : ℤ) + ky then r
        else r + (kernelOffsets.map fun kx =>
          if (x : ℤ) + kx < 0 ∨ (width : ℤ) ≤ (x : ℤ) + kx then 0
          else g ((((y : ℤ) + ky).toNat * width + ((x : ℤ) + kx).toNat) * 4)).sum := by
    funext r ky
    by_cases h : (y : ℤ) + ky < 0 ∨ (height : ℤ) ≤ (y : ℤ) + ky
    · rw [if_pos h, if_pos h]
    · rw [if_neg h, if_neg h,
        foldl_cond_add (fun kx => (x : ℤ) + kx < 0 ∨ (width : ℤ) ≤ (x : ℤ) + kx)
          (fun kx => g ((((y : ℤ) + ky).toNat * width + ((x : ℤ) + kx).toNat) * 4))
          kernelOffsets r]
  rw [hQ, foldl_cond_add (fun ky => (y : ℤ) + ky < 0 ∨ (height : ℤ) ≤ (y : ℤ) + ky)
    (fun ky => (kernelOffsets.map fun kx =>
      if (x : ℤ) + kx < 0 ∨ (width : ℤ) ≤ (x : ℤ) + kx then 0
      else g ((((y : ℤ) + ky).toNat * width + ((x : ℤ) + kx).toNat) * 4)).sum)
    kernelOffsets 0, zero_add]

/-- The double conditional sum over the kernel offsets is the sum over
the in-bounds window finset. -/
theorem windowSum_eq (width height y x : ℕ) (g : ℕ → ℚ) :
    (kernelOffsets.map fun ky =>
        if (y : ℤ) + ky < 0 ∨ (height : ℤ) ≤ (y : ℤ) + ky then 0
        else (kernelOffsets.map fun kx =>
          if (x : ℤ) + kx < 0 ∨ (width : ℤ) ≤ (x : ℤ) + kx then 0
          else g ((((y : ℤ) + ky).toNat * width + ((x : ℤ) + kx).toNat) * 4)).sum).sum
      = ∑ d ∈ blurWindow width height y x,
          g ((((y : ℤ) + d.1).toNat * width + ((x : ℤ) + d.2).toNat) * 4) := by
  have hI : Finset.Icc (-1 : ℤ) 1 = ({-1, 0, 1} : Finset ℤ) := by decide
  unfold blurWindow
  rw [Finset.filter_product (fun ky => ¬((y : ℤ) + ky < 0 ∨ (height : ℤ) ≤ (y : ℤ) + ky))
    (fun kx => ¬((x : ℤ) + kx < 0 ∨ (width : ℤ) ≤ (x : ℤ) + kx))]
  rw [Finset.sum_product]
  simp only [Finset.sum_filter, ite_not]
  rw [hI]
  repeat
    first
    | rw [Finset.sum_insert (by decide)]
    | simp only [Finset.sum_singleton]
  simp only [kernelOffsets, List.map_cons, List.map_nil, List.sum_cons, List.sum_nil,
    add_zero]

theorem blurAccAt_sumR (source : ℕ → ℚ) (width height y x : ℕ) :
    (blurAccAt source width height y x).sumR
      = ∑ d ∈ blurWindow width height y x, source (neighborIdx width y x d 0) := by
  rw [blurAccAt_proj source width height y x BlurAcc.sumR (fun i => source (i + 0)) rfl
    (fun acc2 idx => by simp)]
  rw [windowSum_eq width height y x (fun i => source (i + 0))]
  simp only [neighborIdx]

theorem blurAccAt_sumG (source : ℕ → ℚ) (width height y x : ℕ) :
    (blurAccAt source width height y x).sumG
      = ∑ d ∈ blurWindow width height y x, source (neighborIdx width y x d 1) := by
  rw [blurAccAt_proj source width height y x BlurAcc.sumG (fun i => source (i + 1)) rfl
    (fun acc2 idx => rfl)]
  rw [windowSum_eq width height y x (fun i => source (i + 1))]
  simp only [neighborIdx]

theorem blurAccAt_sumB (source : ℕ → ℚ) (width height y x : ℕ) :
    (blurAccAt source width height y x).sumB
      = ∑ d ∈ blurWindow width height y x, source (neighborIdx width y x d 2) := by
  rw [blurAccAt_proj source width height y x BlurAcc.sumB (fun i => source (i + 2)) rfl
    (fun acc2 idx => rfl)]
  rw [windowSum_eq width height y x (fun i => source (i + 2))]
  simp only [neighborIdx]

theorem blurAccAt_sumA (source : ℕ → ℚ) (width height y x : ℕ) :
    (blurAccAt source width height y x).sumA
      = ∑ d ∈ blurWindow width height y x, source (neighborIdx width y x d 3) := by
  rw [blurAccAt_proj source width height y x BlurAcc.sumA (fun i => source (i + 3)) rfl
    (fun acc2 idx => rfl)]
  rw [windowSum_eq width height y x (fun i => source (i + 3))]
  simp only [neighborIdx]

theorem blurAccAt_samples (source : ℕ → ℚ) (width height y x : ℕ) :
    (blurAccAt source width height y x).samples
      = ((blurWindow width height y x).card : ℚ) := by
  rw [blurAccAt_proj source width height y x BlurAcc.samples (fun _ => 1) rfl
    (fun acc2 idx => rfl)]
  rw [windowSum_eq width height y x (fun _ => 1)]
  rw [Finset.sum_const, nsmul_eq_mul, mul_one]

/-- The window always contains the centre pixel. -/
theorem blurWindow_nonempty (width height y x : ℕ) (hy : y < height) (hx : x < width) :
    (blurWindow width height y x).Nonempty := by
  refine ⟨(0, 0), ?_⟩
  unfold blurWindow
  rw [Finset.mem_filter, Finset.mem_product]
  refine ⟨⟨?_, ?_⟩, ?_, ?_⟩
  · rw [Finset.mem_Icc]; constructor <;> norm_num
  · rw [Finset.mem_Icc]; constructor <;> norm_num
  · push_neg; constructor <;> omega
  · push_neg; constructor <;> omega

theorem blurWindow_card_pos (width height y x : ℕ) (hy : y < height) (hx : x < width) :
    0 < (blurWindow width height y x).card :=
  Finset.card_pos.mpr (blurWindow_nonempty width height y x hy hx)

/-- The box blur's value at any channel of an in-range pixel is the sum
of that channel over the in-bounds 3×3 window divided by the window
size. -/
theorem boxBlur_window_mean (source : ℕ → ℚ) (width height y x c : ℕ)
    (hy : y < height) (hx : x < width) (hc : c < 4) :
    boxBlur source width height ((y * width + x) * 4 + c)
      = (∑ d ∈ blurWindow width height y x, source (neighborIdx width y x d c))
        / ((blurWindow width height y x).card : ℚ) := by
  have happ := boxBlur_apply source width height y x hy hx ((y * width + x) * 4 + c)
    (by omega) (by omega)
  rw [happ]
  simp only [blurWriteStep]
  interval_cases c
  · rw [show (y * width + x) * 4 + 0 = (y * width + x) * 4 by omega, writePixel_at0,
      blurAccAt_sumR, blurAccAt_samples]
  · rw [writePixel_at1, blurAccAt_sumG, blurAccAt_samples]
  · rw [writePixel_at2, blurAccAt_sumB, blurAccAt_samples]
  · rw [writePixel_at3, blurAccAt_sumA, blurAccAt_samples]

/-! ### Claim theorems -/

/-- C1: for every bitmap `b` whose pixel buffer has length
`width * height * 4` and every adjustments record `a`,
`enhanceImageData b a` has the same width, the same height, and a pixel
buffer of the same length as `b`'s; the output buffer is freshly
constructed by the final quantization loop, never `b`'s own list. -/
theorem claim_C1_shape_preservation (b : ImageData) (a : RestorationAdjustments)
    (h : b.data.length = b.width * b.height * 4) :
    (enhanceImageData b a).width = b.width ∧
    (enhanceImageData b a).height = b.height ∧
    (enhanceImageData b a).data.length = b.data.length := by
  refine ⟨rfl, rfl, ?_⟩
  simp [enhanceImageData]

/-- Witness for C1 at a concrete 1×1 bitmap. -/
theorem claim_C1_shape_preservation_witness :
    (⟨1, 1, [1, 2, 3, 4]⟩ : ImageData).data.length = 1 * 1 * 4 ∧
    ((enhanceImageData ⟨1, 1, [1, 2, 3, 4]⟩ DEFAULT_ADJUSTMENTS).width = 1 ∧
      (enhanceImageData ⟨1, 1, [1, 2, 3, 4]⟩ DEFAULT_ADJUSTMENTS).height = 1 ∧
      (enhanceImageData ⟨1, 1, [1, 2, 3, 4]⟩ DEFAULT_ADJUSTMENTS).data.length
        = (⟨1, 1, [1, 2, 3, 4]⟩ : ImageData).data.length) :=
  ⟨by decide, claim_C1_shape_preservation ⟨1, 1, [1, 2, 3, 4]⟩ DEFAULT_ADJUSTMENTS (by decide)⟩

/-- C5: for every caller-supplied adjustments record, the contrast
parameter is clamped to `[-80, 120]`, so the divisor term `259 - C`
is never zero (the `0.0001` substitution branch is present but
unreachable after the clamp), the full divisor `255 * (...)` is never
zero, and the contrast-step output `clamp(F * (v - 128) + 128)` lies in
`[0, 255]` for every channel value. -/
theorem claim_C5_contrast_guard (a : RestorationAdjustments) :
    -80 ≤ contrastValue a ∧ contrastValue a ≤ 120 ∧
    259 - contrastValue a ≠ 0 ∧
    255 * contrastDivisorInner a ≠ 0 ∧
    ∀ v : ℚ, 0 ≤ clamp0255 (contrastFactor a * (v - 128) + 128) ∧
      clamp0255 (contrastFactor a * (v - 128) + 128) ≤ 255 := by
  have hlo : -80 ≤ contrastValue a := by
    unfold contrastValue clamp
    exact le_min (by norm_num) (le_max_left _ _)
  have hhi : contrastValue a ≤ 120 := min_le_left _ _
  have hne : 259 - contrastValue a ≠ 0 := by
    intro hz
    nlinarith [hhi]
  refine ⟨hlo, hhi, hne, ?_, fun v => ⟨clamp0255_nonneg _, clamp0255_le _⟩⟩
  unfold contrastDivisorInner
  rw [if_neg hne]
  intro hz
  have h139 : (139 : ℚ) ≤ 259 - contrastValue a := by linarith
  nlinarith [h139]

/-- C6: the double scaling of the sepia parameter
(`sepia = sepiaReduction / 100` at line 175, then `sepia * 100` at
line 192) cancels exactly: the amount `removeSepia` receives equals
`sepiaReduction`, and the whole pipeline agrees with the variant that
passes `sepiaReduction` directly, on every bitmap and every
adjustments record. -/
theorem claim_C6_sepia_double_scaling (b : ImageData) (a : RestorationAdjustments) :
    a.sepiaReduction / 100 * 100 = a.sepiaReduction ∧
    enhanceImageData b a = enhanceImageDataDirectSepia b a := by
  have hs : a.sepiaReduction / 100 * 100 = a.sepiaReduction :=
    div_mul_cancel₀ a.sepiaReduction (by norm_num)
  refine ⟨hs, ?_⟩
  have hstep : scalarStep a = scalarStepDirectSepia a := by
    funext len w p
    unfold scalarStep scalarStepDirectSepia
    rw [hs]
  have hpass : scalarPass a = scalarPassDirectSepia a := by
    funext len w0
    unfold scalarPass scalarPassDirectSepia
    rw [hstep]
  simp only [enhanceImageData, enhanceImageDataDirectSepia, hpass]

/-- C7: when `denoise ≤ 0` and `clarity ≤ 0`, the pipeline's output is
identical to that of the reference pipeline with steps 9 and 10 omitted
entirely (no blur invoked): both branches are skipped whole. -/
theorem claim_C7_skip_denoise_clarity (b : ImageData) (a : RestorationAdjustments)
    (hd : a.denoise ≤ 0) (hc : a.clarity ≤ 0) :
    enhanceImageData b a = enhanceImageDataNoBlur b a := by
  simp only [enhanceImageData, enhanceImageDataNoBlur,
    if_neg (not_lt.mpr hd), if_neg (not_lt.mpr hc)]

/-- Witness for C7 at a concrete bitmap with the all-zero adjustments. -/
theorem claim_C7_skip_denoise_clarity_witness :
    CLEAN_SLATE_ADJUSTMENTS.denoise ≤ 0 ∧ CLEAN_SLATE_ADJUSTMENTS.clarity ≤ 0 ∧
    enhanceImageData ⟨1, 1, [5, 6, 7, 8]⟩ CLEAN_SLATE_ADJUSTMENTS
      = enhanceImageDataNoBlur ⟨1, 1, [5, 6, 7, 8]⟩ CLEAN_SLATE_ADJUSTMENTS :=
  ⟨by decide, by decide,
    claim_C7_skip_denoise_clarity ⟨1, 1, [5, 6, 7, 8]⟩ CLEAN_SLATE_ADJUSTMENTS
      (by decide) (by decide)⟩

/-- C3 counterexample: `removeSepia` does NOT clamp its outputs.  At the
in-range input triple `(0, 0, 255)` with amount `100 > 0` the blue
output `lerp(gray, cooledB, 1.1)` overshoots `255` (it equals
`278.6589`), so the claim that every §4.1 scalar op returns channels in
`[0, 255]` — and in particular `removeSepia` — is false on the code. -/
theorem claim_C3_counterexample :
    (0 : ℚ) < 100 ∧ removeSepia 0 0 255 100 = (18411 / 4000, 55233 / 20000, 2786589 / 10000) ∧
    255 < (removeSepia 0 0 255 100).2.2 := by
  refine ⟨by norm_num, ?_, ?_⟩ <;>
    norm_num [removeSepia, luminance, clamp0255, clamp, lerp]

/-- C3 amended: the clamping scalar ops — saturation/vibrance, warmth
and shadow/highlight — do return three channels in `[0, 255]` for every
input triple in `[0, 255]` and arbitrary strength parameters;
`removeSepia` is the exception: it does not clamp its results (they are
clamped afterwards by the orchestrator, line 202–204). -/
theorem claim_C3_amended (r g b : ℚ)
    (h0r : 0 ≤ r) (h1r : r ≤ 255) (h0g : 0 ≤ g) (h1g : g ≤ 255)
    (h0b : 0 ≤ b) (h1b : b ≤ 255) :
    (∀ amount vibrance : ℚ, inRange255 (adjustSaturation r g b amount vibrance)) ∧
    (∀ warmth : ℚ, inRange255 (applyWarmth r g b warmth)) ∧
    (∀ sl hr : ℚ, inRange255 (applyShadowHighlight r g b sl hr)) := by
  have hid : inRange255 (r, g, b) :=
    ⟨⟨h0r, h1r⟩, ⟨h0g, h1g⟩, ⟨h0b, h1b⟩⟩
  have hcl : ∀ x y z : ℚ, inRange255 (clamp0255 x, clamp0255 y, clamp0255 z) :=
    fun x y z => ⟨⟨clamp0255_nonneg x, clamp0255_le x⟩,
      ⟨clamp0255_nonneg y, clamp0255_le y⟩, ⟨clamp0255_nonneg z, clamp0255_le z⟩⟩
  refine ⟨fun amount vibrance => ?_, fun warmth => ?_, fun sl hr => ?_⟩
  · unfold adjustSaturation
    split
    · exact hid
    · exact hcl _ _ _
  · unfold applyWarmth
    split
    · exact hid
    · exact hcl _ _ _
  · unfold applyShadowHighlight
    split
    · exact hid
    · exact hcl _ _ _

/-- Witness for C3's amended statement at a concrete in-range triple. -/
theorem claim_C3_amended_witness :
    inRange255 (adjustSaturation 10 20 30 (1 / 2) (1 / 4)) ∧
    inRange255 (applyWarmth 10 20 30 (-7)) ∧
    inRange255 (applyShadowHighlight 10 20 30 12 8) := by
  obtain ⟨h1, h2, h3⟩ := claim_C3_amended 10 20 30 (by norm_num) (by norm_num)
    (by norm_num) (by norm_num) (by norm_num) (by norm_num)
  exact ⟨h1 (1 / 2) (1 / 4), h2 (-7), h3 12 8⟩

/-! ### Evaluating the pipeline pointwise -/

/-- Whatever the adjustments, the output alpha byte is the
clamp-and-quantize of the input alpha value: the scalar loop writes
`clamp(a)` into the alpha slot and the denoise and clarity loops never
touch it. -/
theorem enhance_alpha (b : ImageData) (a : RestorationAdjustments) (p : ℕ)
    (hj : 4 * p + 3 < b.data.length) :
    (enhanceImageData b a).data.getD (4 * p + 3) 0
      = toUint8Clamp (clamp0255 ((b.data.getD (4 * p + 3) 0 : ℕ) : ℚ)) := by
  have hp : p < numPixelIters b.data.length := by
    unfold numPixelIters; omega
  simp only [enhanceImageData]
  rw [getD_range_map _ _ _ hj]
  split
  case isTrue hcl =>
    rw [clarityPass_apply _ _ _ _ p _ hp (by omega) (by omega), clarityStep_alpha]
    split
    case isTrue hdn =>
      rw [denoisePass_apply _ _ _ _ p _ hp (by omega) (by omega), denoiseStep_alpha,
        scalarPass_apply _ _ _ p _ hp (by omega) (by omega), scalarStep_alpha,
        if_pos hj, clamp0255_idem]
    case isFalse hdn =>
      rw [scalarPass_apply _ _ _ p _ hp (by omega) (by omega), scalarStep_alpha,
        if_pos hj, clamp0255_idem]
  case isFalse hcl =>
    split
    case isTrue hdn =>
      rw [denoisePass_apply _ _ _ _ p _ hp (by omega) (by omega), denoiseStep_alpha,
        scalarPass_apply _ _ _ p _ hp (by omega) (by omega), scalarStep_alpha,
        if_pos hj, clamp0255_idem]
    case isFalse hdn =>
      rw [scalarPass_apply _ _ _ p _ hp (by omega) (by omega), scalarStep_alpha,
        if_pos hj, clamp0255_idem]

/-- With adjustments that are neutral except for exposure, each output
R, G or B byte is the clamp-and-quantize of the input value plus
`exposure * 2.2`. -/
theorem enhance_exposure_only_rgb (e : ℚ) (b : ImageData) (p c : ℕ) (hc : c < 3)
    (hj : 4 * p + c < b.data.length) :
    (enhanceImageData b ⟨e, 0, 0, 0, 0, 0, 0, 0, 0, 0⟩).data.getD (4 * p + c) 0
      = toUint8Clamp (clamp0255 (((b.data.getD (4 * p + c) 0 : ℕ) : ℚ) + e * 2.2)) := by
  have hp : p < numPixelIters b.data.length := by
    unfold numPixelIters; omega
  simp only [enhanceImageData]
  rw [getD_range_map _ _ _ hj]
  rw [if_neg (by norm_num), if_neg (by norm_num)]
  rw [scalarPass_apply _ _ _ p _ hp (by omega) (by omega),
    scalarStep_exposure_only]
  interval_cases c
  · rw [show 4 * p + 0 = 4 * p by omega, writePixel_at0, clamp0255_idem]
  · rw [writePixel_at1, clamp0255_idem]
  · rw [writePixel_at2, clamp0255_idem]

/-- C2: with the all-zero `CLEAN_SLATE_ADJUSTMENTS`, the exposure
offset is `0`, the contrast factor is exactly `1`, every scalar color
op takes its zero-parameter identity branch, the denoise and clarity
passes are skipped, the final clamp-and-quantize is the identity on
in-range integer channels, and the pipeline returns the input bitmap
pixel for pixel. -/
theorem claim_C2_neutral_identity (b : ImageData)
    (hbytes : ∀ v ∈ b.data, v ≤ 255) :
    exposureOffset CLEAN_SLATE_ADJUSTMENTS = 0 ∧
    contrastFactor CLEAN_SLATE_ADJUSTMENTS = 1 ∧
    enhanceImageData b CLEAN_SLATE_ADJUSTMENTS = b := by
  refine ⟨by norm_num [exposureOffset, CLEAN_SLATE_ADJUSTMENTS],
    contrastFactor_of_zero CLEAN_SLATE_ADJUSTMENTS rfl, ?_⟩
  have hbyte : ∀ j, j < b.data.length → b.data.getD j 0 ≤ 255 := fun j hjl => by
    rw [getD_lt b.data j hjl]
    exact hbytes _ (List.getElem_mem hjl)
  have hdata : ∀ j, j < b.data.length →
      (enhanceImageData b CLEAN_SLATE_ADJUSTMENTS).data.getD j 0 = b.data.getD j 0 := by
    intro j hjl
    obtain ⟨p, c, hc, rfl⟩ : ∃ p c, c < 4 ∧ j = 4 * p + c :=
      ⟨j / 4, j % 4, by omega, by omega⟩
    rcases (show c < 3 ∨ c = 3 by omega) with hc3 | hc3
    · rw [show CLEAN_SLATE_ADJUSTMENTS = ⟨0, 0, 0, 0, 0, 0, 0, 0, 0, 0⟩ from rfl,
        enhance_exposure_only_rgb 0 b p c hc3 hjl]
      rw [zero_mul, add_zero,
        clamp0255_eq_self (by positivity) (by exact_mod_cast hbyte _ hjl),
        toUint8Clamp_natCast _ (hbyte _ hjl)]
    · subst hc3
      rw [enhance_alpha b CLEAN_SLATE_ADJUSTMENTS p hjl,
        clamp0255_eq_self (by positivity) (by exact_mod_cast hbyte _ hjl),
        toUint8Clamp_natCast _ (hbyte _ hjl)]
  refine ImageData.ext rfl rfl ?_
  apply List.ext_getElem
  · simp [enhanceImageData]
  intro i h1 h2
  have := hdata i h2
  rwa [getD_lt _ i h1, getD_lt _ i h2] at this

/-- Witness for C2 at a concrete 1×1 bitmap with in-range bytes. -/
theorem claim_C2_neutral_identity_witness :
    exposureOffset CLEAN_SLATE_ADJUSTMENTS = 0 ∧
    contrastFactor CLEAN_SLATE_ADJUSTMENTS = 1 ∧
    enhanceImageData ⟨1, 1, [10, 20, 30, 255]⟩ CLEAN_SLATE_ADJUSTMENTS
      = ⟨1, 1, [10, 20, 30, 255]⟩ :=
  claim_C2_neutral_identity ⟨1, 1, [10, 20, 30, 255]⟩ (by decide)

/-- C8: with adjustments neutral except exposure `e`, the pipeline adds
`e * 2.2` to every pixel's R, G and B (then clamps and quantizes),
leaves every alpha byte unchanged, and preserves the dimensions. -/
theorem claim_C8_exposure (e : ℚ) (b : ImageData)
    (hbytes : ∀ v ∈ b.data, v ≤ 255) :
    (enhanceImageData b ⟨e, 0, 0, 0, 0, 0, 0, 0, 0, 0⟩).width = b.width ∧
    (enhanceImageData b ⟨e, 0, 0, 0, 0, 0, 0, 0, 0, 0⟩).height = b.height ∧
    (∀ p c : ℕ, c < 3 → 4 * p + c < b.data.length →
      (enhanceImageData b ⟨e, 0, 0, 0, 0, 0, 0, 0, 0, 0⟩).data.getD (4 * p + c) 0
        = toUint8Clamp (clamp0255 (((b.data.getD (4 * p + c) 0 : ℕ) : ℚ) + e * 2.2))) ∧
    (∀ p : ℕ, 4 * p + 3 < b.data.length →
      (enhanceImageData b ⟨e, 0, 0, 0, 0, 0, 0, 0, 0, 0⟩).data.getD (4 * p + 3) 0
        = b.data.getD (4 * p + 3) 0) := by
  refine ⟨rfl, rfl, fun p c hc hj => enhance_exposure_only_rgb e b p c hc hj,
    fun p hj => ?_⟩
  have hbyte : b.data.getD (4 * p + 3) 0 ≤ 255 := by
    rw [getD_lt b.data _ hj]
    exact hbytes _ (List.getElem_mem hj)
  rw [enhance_alpha b _ p hj,
    clamp0255_eq_self (by positivity) (by exact_mod_cast hbyte),
    toUint8Clamp_natCast _ hbyte]

/-- Witness for C8: the spec's 2×1 end-to-end scenario with
exposure 10: `10 × 2.2 = 22` is added to each RGB channel, the dark
pixel becomes `(32,32,32)`, the bright one saturates at `255`, alpha
stays `255`, and the dimensions stay 2×1. -/
theorem claim_C8_exposure_witness :
    (enhanceImageData ⟨2, 1, [10, 10, 10, 255, 250, 250, 250, 255]⟩
        ⟨10, 0, 0, 0, 0, 0, 0, 0, 0, 0⟩).width = 2 ∧
    (enhanceImageData ⟨2, 1, [10, 10, 10, 255, 250, 250, 250, 255]⟩
        ⟨10, 0, 0, 0, 0, 0, 0, 0, 0, 0⟩).height = 1 ∧
    (enhanceImageData ⟨2, 1, [10, 10, 10, 255, 250, 250, 250, 255]⟩
        ⟨10, 0, 0, 0, 0, 0, 0, 0, 0, 0⟩).data = [32, 32, 32, 255, 255, 255, 255, 255] := by
  obtain ⟨hw, hh, hrgb, halpha⟩ :=
    claim_C8_exposure 10 ⟨2, 1, [10, 10, 10, 255, 250, 250, 250, 255]⟩ (by decide)
  refine ⟨hw, hh, ?_⟩
  have h0 := hrgb 0 0 (by norm_num) (by norm_num)
  have h1 := hrgb 0 1 (by norm_num) (by norm_num)
  have h2 := hrgb 0 2 (by norm_num) (by norm_num)
  have h3 := halpha 0 (by norm_num)
  have h4 := hrgb 1 0 (by norm_num) (by norm_num)
  have h5 := hrgb 1 1 (by norm_num) (by norm_num)
  have h6 := hrgb 1 2 (by norm_num) (by norm_num)
  have h7 := halpha 1 (by norm_num)
  norm_num at h0 h1 h2 h3 h4 h5 h6 h7
  apply List.ext_getElem
  · simp [enhanceImageData]
  intro i hi1 hi2
  rw [← getD_lt _ _ hi1, List.getD_eq_getElem?_getD]
  have h8 : i < 8 := by simpa using hi2
  interval_cases i
  · exact h0.trans (by norm_num [toUint8Clamp, clamp0255, clamp] <;> decide)
  · exact h1.trans (by norm_num [toUint8Clamp, clamp0255, clamp] <;> decide)
  · exact h2.trans (by norm_num [toUint8Clamp, clamp0255, clamp] <;> decide)
  · exact h3.trans (by norm_num)
  · exact h4.trans (by norm_num [toUint8Clamp, clamp0255, clamp] <;> decide)
  · exact h5.trans (by norm_num [toUint8Clamp, clamp0255, clamp] <;> decide)
  · exact h6.trans (by norm_num [toUint8Clamp, clamp0255, clamp] <;> decide)
  · exact h7.trans (by norm_num)

/-- C9: for every bitmap with byte channels and every adjustments
record whatsoever, the output alpha of every pixel equals the input
alpha: no tone, color, denoise or clarity step writes the alpha slot
(the denoise mix touches only R, G, B and discards the blurred
alpha). -/
theorem claim_C9_alpha_preserved (b : ImageData) (a : RestorationAdjustments)
    (hbytes : ∀ v ∈ b.data, v ≤ 255) (p : ℕ) (hj : 4 * p + 3 < b.data.length) :
    (enhanceImageData b a).data.getD (4 * p + 3) 0 = b.data.getD (4 * p + 3) 0 := by
  have hbyte : b.data.getD (4 * p + 3) 0 ≤ 255 := by
    rw [getD_lt b.data _ hj]
    exact hbytes _ (List.getElem_mem hj)
  rw [enhance_alpha b a p hj,
    clamp0255_eq_self (by positivity) (by exact_mod_cast hbyte),
    toUint8Clamp_natCast _ hbyte]

/-- Witness for C9 at a concrete bitmap and non-trivial adjustments. -/
theorem claim_C9_alpha_preserved_witness :
    (enhanceImageData ⟨1, 1, [10, 20, 30, 200]⟩ DEFAULT_ADJUSTMENTS).data.getD (4 * 0 + 3) 0
      = (⟨1, 1, [10, 20, 30, 200]⟩ : ImageData).data.getD (4 * 0 + 3) 0 :=
  claim_C9_alpha_preserved ⟨1, 1, [10, 20, 30, 200]⟩ DEFAULT_ADJUSTMENTS
    (by decide) 0 (by decide)

/-- C4: for every working buffer, pixel `(x, y)` in range and channel
`c` (R, G, B and alpha alike), `boxBlur`'s value at that channel is the
arithmetic mean — the sum divided by the number of samples — of the
channel over exactly the in-bounds cells of the 3×3 window centred at
`(x, y)`: no wraparound and no padding, and the divisor (the window's
cardinality, 9 in the interior) is positive. -/
theorem claim_C4_boxBlur_window_mean (source : ℕ → ℚ) (width height y x c : ℕ)
    (hy : y < height) (hx : x < width) (hc : c < 4) :
    0 < (blurWindow width height y x).card ∧
    boxBlur source width height ((y * width + x) * 4 + c)
      = (∑ d ∈ blurWindow width height y x, source (neighborIdx width y x d c))
        / ((blurWindow width height y x).card : ℚ) :=
  ⟨blurWindow_card_pos width height y x hy hx,
    boxBlur_window_mean source width height y x c hy hx hc⟩

/-- Witness for C4: the green channel of pixel `(0, 1)` of a 2×2 buffer
holding `source i = i`. -/
theorem claim_C4_boxBlur_window_mean_witness :
    0 < (blurWindow 2 2 1 0).card ∧
    boxBlur (fun i => (i : ℚ)) 2 2 ((1 * 2 + 0) * 4 + 1)
      = (∑ d ∈ blurWindow 2 2 1 0, ((neighborIdx 2 1 0 d 1 : ℕ) : ℚ))
        / ((blurWindow 2 2 1 0).card : ℚ) :=
  claim_C4_boxBlur_window_mean (fun i => (i : ℚ)) 2 2 1 0 1
    (by norm_num) (by norm_num) (by norm_num)

/-- C10 (implicit): every `boxBlur` output channel lies between the
minimum and the maximum of that channel over the in-bounds 3×3 window
(it is their average); consequently `boxBlur` maps a constant buffer to
itself at every in-range cell, and values in `[0, 255]` stay in
`[0, 255]` — which is why the unclamped denoise mixing loop cannot
drive channels out of range. -/
theorem claim_C10_blur_bounds (source : ℕ → ℚ) (width height y x c : ℕ)
    (hy : y < height) (hx : x < width) (hc : c < 4) :
    ((blurWindow width height y x).inf' (blurWindow_nonempty width height y x hy hx)
        (fun d => source (neighborIdx width y x d c))
      ≤ boxBlur source width height ((y * width + x) * 4 + c) ∧
      boxBlur source width height ((y * width + x) * 4 + c)
        ≤ (blurWindow width height y x).sup' (blurWindow_nonempty width height y x hy hx)
            (fun d => source (neighborIdx width y x d c))) ∧
    (∀ k : ℚ, (∀ i, source i = k) →
      boxBlur source width height ((y * width + x) * 4 + c) = k) ∧
    ((∀ i, 0 ≤ source i ∧ source i ≤ 255) →
      0 ≤ boxBlur source width height ((y * width + x) * 4 + c) ∧
      boxBlur source width height ((y * width + x) * 4 + c) ≤ 255) := by
  have hne := blurWindow_nonempty width height y x hy hx
  have hcard : (0 : ℚ) < ((blurWindow width height y x).card : ℚ) := by
    exact_mod_cast blurWindow_card_pos width height y x hy hx
  rw [boxBlur_window_mean source width height y x c hy hx hc]
  refine ⟨⟨?_, ?_⟩, ?_, ?_⟩
  · rw [le_div_iff hcard]
    calc (blurWindow width height y x).inf' hne
          (fun d => source (neighborIdx width y x d c)) * ((blurWindow width height y x).card : ℚ)
        = (blurWindow width height y x).card •
            (blurWindow width height y x).inf' hne
              (fun d => source (neighborIdx width y x d c)) := by
          rw [nsmul_eq_mul, mul_comm]
      _ ≤ ∑ d ∈ blurWindow width height y x, source (neighborIdx width y x d c) :=
          Finset.card_nsmul_le_sum _ _ _ (fun d hd => Finset.inf'_le _ hd)
  · rw [div_le_iff hcard]
    calc (∑ d ∈ blurWindow width height y x, source (neighborIdx width y x d c))
        ≤ (blurWindow width height y x).card •
            (blurWindow width height y x).sup' hne
              (fun d => source (neighborIdx width y x d c)) :=
          Finset.sum_le_card_nsmul _ _ _ (fun d hd =>
            Finset.le_sup' (fun d => source (neighborIdx width y x d c)) hd)
      _ = (blurWindow width height y x).sup' hne
            (fun d => source (neighborIdx width y x d c)) *
            ((blurWindow width height y x).card : ℚ) := by
          rw [nsmul_eq_mul, mul_comm]
  · intro k hk
    rw [Finset.sum_congr rfl (fun d _ => hk (neighborIdx width y x d c)),
      Finset.sum_const, nsmul_eq_mul, mul_comm,
      mul_div_assoc, div_self hcard.ne', mul_one]
  · intro hb
    constructor
    · exact div_nonneg (Finset.sum_nonneg fun d _ => (hb _).1) hcard.le
    · rw [div_le_iff hcard]
      calc (∑ d ∈ blurWindow width height y x, source (neighborIdx width y x d c))
          ≤ (blurWindow width height y x).card • (255 : ℚ) :=
            Finset.sum_le_card_nsmul _ _ _ (fun d _ => (hb _).2)
        _ = 255 * ((blurWindow width height y x).card : ℚ) := by
            rw [nsmul_eq_mul, mul_comm]

/-- Witness for C10 on a constant 1×1 buffer. -/
theorem claim_C10_blur_bounds_witness :
    ((blurWindow 1 1 0 0).inf' (blurWindow_nonempty 1 1 0 0 Nat.one_pos Nat.one_pos)
        (fun d => (fun _ : ℕ => (7 : ℚ)) (neighborIdx 1 0 0 d 0))
      ≤ boxBlur (fun _ => (7 : ℚ)) 1 1 ((0 * 1 + 0) * 4 + 0) ∧
      boxBlur (fun _ => (7 : ℚ)) 1 1 ((0 * 1 + 0) * 4 + 0)
        ≤ (blurWindow 1 1 0 0).sup' (blurWindow_nonempty 1 1 0 0 Nat.one_pos Nat.one_pos)
            (fun d => (fun _ : ℕ => (7 : ℚ)) (neighborIdx 1 0 0 d 0))) ∧
    (∀ k : ℚ, (∀ i : ℕ, (7 : ℚ) = k) →
      boxBlur (fun _ => (7 : ℚ)) 1 1 ((0 * 1 + 0) * 4 + 0) = k) ∧
    ((∀ i : ℕ, (0 : ℚ) ≤ 7 ∧ (7 : ℚ) ≤ 255) →
      0 ≤ boxBlur (fun _ => (7 : ℚ)) 1 1 ((0 * 1 + 0) * 4 + 0) ∧
      boxBlur (fun _ => (7 : ℚ)) 1 1 ((0 * 1 + 0) * 4 + 0) ≤ 255) :=
  claim_C10_blur_bounds (fun _ => (7 : ℚ)) 1 1 0 0 0 Nat.one_pos Nat.one_pos
    (by norm_num)

end ImageProcessing
